import Mathlib

/-!
Verification of the PAWS-2526 water-distribution data-reduction pipeline.

The numeric core (`functions.py`) and the orchestrator (`main.py`) are
embedded shallowly: Python floats are modelled by `ℚ` (all inputs in the
claims are dyadic, where binary64 arithmetic is exact), the floating
NaN value and Python `None` by explicit constructors, and Python
exceptions by `Except PyError`.  NumPy array primitives used by the code
(`np.clip`, `np.full_like`, `np.asarray(dtype=float)`, `np.mean`,
`np.std`) are modelled by list functions with NumPy's documented
semantics; in particular `np.asarray(xs, dtype=float)` converts a
Python `None` entry to NaN, and `np.mean` / `np.std` propagate NaN.
-/

/-- Python exceptions that the pipeline can raise: `TypeError` from
arithmetic on `None`, `ZeroDivisionError` from float division by
exactly zero. -/
inductive PyError where
  | typeError
  | zeroDivision
deriving DecidableEq

/-- A Python value appearing in the per-group metric lists of `main`:
a finite float, the float NaN, or `None`. -/
inductive PyVal where
  | float (q : ℚ)
  | nan
  | pynone
deriving DecidableEq

/-- One element of a NumPy float64 array: a finite value or NaN
(modelled as `Option.none`). -/
abbrev NpFloat := Option ℚ

/-- NumPy scalar conversion to float64, as performed by
`np.asarray(data, dtype=float)`: a finite float stays itself, NaN stays
NaN, and a Python `None` entry is converted to NaN (NumPy semantics;
`float(None)` in plain Python would raise, but NumPy does not). -/
def asarray_float : PyVal → NpFloat
  | .float q => some q
  | .nan => none
  | .pynone => none

/-- NumPy elementwise clip of a scalar: `np.clip(x, lo, hi)` is
`min(hi, max(x, lo))`. -/
def np_clip (x lo hi : ℚ) : ℚ := min hi (max x lo)

/-- functions.py, `cap_service_data`: `np.clip(service_data, 0.0, setpoint)`,
elementwise over the signal. -/
def cap_service_data (service_data : List ℚ) (setpoint : ℚ) : List ℚ :=
  service_data.map (fun x => np_clip x 0 setpoint)

/-- functions.py, `check_negative_values`: `np.all(array >= 0.0)`. -/
def check_negative_values (array : List ℚ) : Bool :=
  array.all (fun x => 0 ≤ x)

/-- functions.py, `integral_with_time_step`: if the two arrays differ in
length, warn and return `None` (modelled `Option.none`); otherwise run the
accumulator loop `for i in range(len(data) - 1): integral += 0.5 *
(data[i] + data[i+1]) * (time_steps[i+1] - time_steps[i])` and return the
total.  Indexing is in range throughout the loop, so `getD _ 0`
coincides with Python indexing. -/
def integral_with_time_step (data time_steps : List ℚ) : Option ℚ :=
  if data.length ≠ time_steps.length then
    none
  else
    some ((List.range (data.length - 1)).foldl
      (fun acc i =>
        acc + (1/2) * (data.getD i 0 + data.getD (i+1) 0) *
          (time_steps.getD (i+1) 0 - time_steps.getD i 0))
      0)

/-- functions.py, `calculate_service_loss`:
`100.0 * (1.0 - (service_fill / service_target))`.  Both arguments are
plain Python floats at the call site, so division by an exactly-zero
target raises `ZeroDivisionError` (Python float semantics); otherwise
the quotient is exact on the rational model. -/
def calculate_service_loss (service_fill service_target : ℚ) : Except PyError ℚ :=
  if service_target = 0 then
    .error .zeroDivision
  else
    .ok (100 * (1 - service_fill / service_target))

/-- functions.py, `convert_Ws_to_Wh`: `energy_in_Ws / 3600.0`. -/
def convert_Ws_to_Wh (energy_in_Ws : ℚ) : ℚ := energy_in_Ws / 3600

/-- NaN-propagating sum of a float64 array: any NaN entry makes the sum
NaN (NumPy reduction semantics for `np.mean` and `np.std`). -/
def npSum : List NpFloat → NpFloat
  | [] => some 0
  | none :: _ => none
  | some a :: xs => (npSum xs).map (fun b => a + b)

/-- NumPy `np.mean` on a float64 array: NaN on an empty array (NumPy
warns and yields NaN), NaN if any entry is NaN, otherwise the exact
arithmetic mean. -/
def np_mean (arr : List NpFloat) : NpFloat :=
  if arr.length = 0 then none
  else (npSum arr).map (fun s => s / (arr.length : ℚ))

/-- NumPy `np.var` (population variance, the default `ddof=0` used by
`np.std`): mean of squared deviations from the mean, propagating NaN. -/
def np_var (arr : List NpFloat) : NpFloat :=
  (np_mean arr).bind
    (fun m => np_mean (arr.map (fun x => x.map (fun q => (q - m) ^ 2))))

/-- NumPy `np.std`: square root of the population variance.  The square
root is irrational in general, so this single component lives in `ℝ`. -/
noncomputable def np_std (arr : List NpFloat) : Option ℝ :=
  (np_var arr).map (fun v => Real.sqrt ((v : ℚ) : ℝ))

/-- functions.py, `calculate_mean_and_std`:
`arr = np.asarray(data, dtype=float); return float(np.mean(arr)), float(np.std(arr))`.
The input list may contain finite floats, NaN, or `None`; the array
conversion turns `None` into NaN. -/
noncomputable def calculate_mean_and_std (data : List PyVal) : NpFloat × Option ℝ :=
  (np_mean (data.map asarray_float), np_std (data.map asarray_float))

/-- Raw contents of one run group in the input archive, as `main` reads
them: the `analyse_start_time_index` attribute and the four datasets,
each `Option` because `read_metadata` / `read_data` return `None` when
the path or attribute is absent. -/
structure RunRaw where
  analyse_start_time_index : Option ℕ
  tank_pressure : Option (List ℚ)
  pump_1 : Option (List ℚ)
  pump_2 : Option (List ℚ)
  time : Option (List ℚ)

/-- The per-run body of `main`'s inner loop (main.py lines 67-120),
for a group whose setpoint is `sp`.  Returns the pair
(service-loss entry, power entry) appended to the group lists, or a
raised exception.

  * If any of the four datasets is `None`, NaN placeholders are
    appended for both metrics (the missing-data branch).
  * Otherwise the pressure signal is capped, both the capped signal and
    the time base are sliced from `analyse_start_time_index` on (a
    `None` index slices as `[None:]`, i.e. from the start), the actual
    and target integrals are computed, and the service loss and the
    pump energy are derived.  An integration length mismatch yields
    Python `None`, and the subsequent arithmetic on it raises
    `TypeError`; a zero target integral raises `ZeroDivisionError`.
    The negative-power check only prints a warning and is omitted. -/
def processRun (sp : ℚ) (raw : RunRaw) : Except PyError (PyVal × PyVal) :=
  match raw.tank_pressure, raw.pump_1, raw.pump_2, raw.time with
  | some tank, some p1, some p2, some time => do
      let start := raw.analyse_start_time_index.getD 0
      let service_fill := cap_service_data tank sp
      let sliced_fill := service_fill.drop start
      let sliced_time := time.drop start
      let service_fill_integral := integral_with_time_step sliced_fill sliced_time
      let service_target_signal := List.replicate sliced_fill.length sp
      let service_target_integral := integral_with_time_step service_target_signal sliced_time
      let service_loss_percent ← match service_fill_integral, service_target_integral with
        | some f, some t => calculate_service_loss f t
        | _, _ => .error .typeError
      let total_energy_ws ← match integral_with_time_step p1 time,
          integral_with_time_step p2 time with
        | some a, some b => .ok (a + b)
        | _, _ => .error .typeError
      .ok (.float service_loss_percent, .float (convert_Ws_to_Wh total_energy_ws))
  | _, _, _, _ =>
      .ok (.nan, .nan)

/-- The input archive as `main` sees it: a setpoint attribute per group
path (absent paths and attributes yield `None`), and the raw data of
run `i` of each group. -/
structure Archive where
  setpoint : String → Option ℚ
  runs : String → ℕ → RunRaw

/-- The run indices of `main`'s inner loop, `range(1, 11)`. -/
def runIds : List ℕ := List.range' 1 10

/-- One aggregated table row, in the column order of `main`:
`[power_mean, power_std, service_loss_mean, service_loss_std]`. -/
structure AggRow where
  power_mean : NpFloat
  power_std : Option ℝ
  service_loss_mean : NpFloat
  service_loss_std : Option ℝ

/-- Outcome of `main`'s outer loop body for one enumerated group. -/
inductive GroupOutcome where
  | skippedNotConsidered
  | skippedNoSetpoint
  | aggregated (row : AggRow)

/-- Whether every run of group `g` processes without raising, given the
group's setpoint; vacuously true when the setpoint is absent. -/
def groupRunsOk (A : Archive) (g : String) : Bool :=
  match A.setpoint g with
  | none => true
  | some sp => runIds.all (fun i => (processRun sp (A.runs g i)).isOk)

/-- The body of `main`'s outer loop (main.py lines 46-134) for one
group name: skip groups outside the caller-supplied allow-list before
touching the archive, skip groups with no setpoint attribute, and
otherwise collect the ten per-run metric pairs and reduce each list
with `calculate_mean_and_std`. -/
noncomputable def processGroup (A : Archive) (considered : List String) (g : String) :
    Except PyError GroupOutcome :=
  if g ∉ considered then
    .ok .skippedNotConsidered
  else
    match A.setpoint g with
    | none => .ok .skippedNoSetpoint
    | some sp => do
        let pairs ← runIds.mapM (fun i => processRun sp (A.runs g i))
        let groups_service_loss := pairs.map Prod.fst
        let groups_power := pairs.map Prod.snd
        let msl := calculate_mean_and_std groups_service_loss
        let mpw := calculate_mean_and_std groups_power
        .ok (.aggregated ⟨mpw.1, mpw.2, msl.1, msl.2⟩)

/-- The aggregated `processed_data` table: rows keyed by group id. -/
abbrev Table := List (String × AggRow)

/-- One step of `main`'s outer loop acting on the `processed_data`
table: a skipped group leaves the table unchanged, an aggregated group
appends its row keyed by the group id
(`processed_data.loc[group] = [...]`; the enumerated names are pairwise
distinct in `main`, so loc-assignment is a fresh append). -/
noncomputable def tableStep (A : Archive) (considered : List String)
    (tbl : Table) (g : String) : Except PyError Table := do
  match ← processGroup A considered g with
  | .skippedNotConsidered => .ok tbl
  | .skippedNoSetpoint => .ok tbl
  | .aggregated row => .ok (tbl ++ [(g, row)])

/-- The outer loop of `main` over all enumerated group names, building
the `processed_data` table from empty. -/
noncomputable def buildTable (A : Archive) (considered names : List String) :
    Except PyError Table :=
  names.foldlM (tableStep A considered) []

/-- Metadata record attached to the stored plot unit: a dictionary of
string keys and values (`x_label`, `x_unit`, `y_label`, `y_unit`,
`legend_title` in `main`). -/
abbrev Metadata := List (String × String)

/-- One node of the pandas `HDFStore` file: the stored table together
with its attribute dictionary (`storer.attrs`), each attribute a named
metadata record. -/
structure HDFNode where
  df : Table
  attrs : List (String × Metadata)

/-- The pandas `HDFStore` file, as the key-value store the Result Store
code drives: group names mapped to nodes.  The store primitives
(`put`, `remove`, `store[path]`, `get_storer(..).attrs`) are external
collaborators modelled as exact association-list operations. -/
abbrev HDFStoreFile := List (String × HDFNode)

/-- functions.py, `save_dataframe_in_hdf5_with_metadata`: inside the
open store, `if group_name in store: store.remove(group_name)`, then
`store.put(group_name, df, 'table')` and
`storer.attrs.metadata = metadata` — delete-then-insert of the node
whose single `metadata` attribute carries the whole dictionary. -/
def save_dataframe_in_hdf5_with_metadata (df : Table) (store : HDFStoreFile)
    (group_name : String) (metadata : Metadata) : HDFStoreFile :=
  let cleaned := if (store.lookup group_name).isSome then
      store.filter (fun kv => kv.1 ≠ group_name)
    else store
  (group_name, ⟨df, [("metadata", metadata)]⟩) :: cleaned

/-- functions.py, `read_plot_data`: `df = store[group_path]` followed by
`store.get_storer(group_path).attrs.metadata`.  A missing group raises
`KeyError` and a missing `metadata` attribute raises `AttributeError`;
both are modelled as `Option.none`. -/
def read_plot_data (store : HDFStoreFile) (group_path : String) :
    Option (Table × Metadata) :=
  match store.lookup group_path with
  | none => none
  | some node =>
      match node.attrs.lookup "metadata" with
      | none => none
      | some metadata => some (node.df, metadata)

/-- The arithmetic mean of a list, as the specification states it. -/
def meanFormula (l : List ℚ) : ℚ := l.sum / (l.length : ℚ)

/-- The population variance of a list (mean of squared deviations from
the mean), whose square root is the population standard deviation the
specification states. -/
def varFormula (l : List ℚ) : ℚ :=
  (l.map (fun x => (x - meanFormula l) ^ 2)).sum / (l.length : ℚ)

/-- The trapezoidal sum as the specification states it: sum over `i` of
`0.5 * (signal[i] + signal[i+1]) * (timeBase[i+1] - timeBase[i])`. -/
def trapFormula (signal timeBase : List ℚ) : ℚ :=
  ((List.range (signal.length - 1)).map
    (fun i => (1/2) * (signal.getD i 0 + signal.getD (i+1) 0) *
      (timeBase.getD (i+1) 0 - timeBase.getD i 0))).sum

/-- An archive exercising the unhandled length-mismatch path: every run
has a 2-element pressure signal against a 3-element time base. -/
def mismatchArchive : Archive :=
  ⟨fun _ => some 5,
   fun _ _ => ⟨some 0, some [1, 2], some [0, 0, 0], some [0, 0, 0], some [0, 1, 2]⟩⟩

/-- An archive for the orchestrator witness: group `A` has a setpoint
and all-missing run data (every run contributes NaN placeholders),
every other group has no setpoint attribute. -/
def witnessArchive : Archive :=
  ⟨fun g => if g = "A" then some 5 else none,
   fun _ _ => ⟨none, none, none, none, none⟩⟩

theorem foldl_add_eq_sum_map (f : ℕ → ℚ) :
    ∀ (l : List ℕ) (a : ℚ),
      l.foldl (fun acc i => acc + f i) a = a + (l.map f).sum := by
  intro l
  induction l with
  | nil => simp
  | cons x xs ih =>
      intro a
      simp only [List.foldl_cons, List.map_cons, List.sum_cons, ih]
      ring

/-- C1: for setpoint 5, analyse_start_time_index 2, pressure
[6,5,4,3,-1] and time [0,1,2,3,4], capping yields [5,5,4,3,0], the
actual integral over the sliced window is 5, the target integral is 10,
and the per-run service loss is exactly 50 percent. -/
theorem C1_end_to_end_scenario :
    cap_service_data [6, 5, 4, 3, -1] 5 = [5, 5, 4, 3, 0] ∧
    integral_with_time_step [4, 3, 0] [2, 3, 4] = some 5 ∧
    integral_with_time_step (List.replicate 3 5) [2, 3, 4] = some 10 ∧
    (processRun 5 ⟨some 2, some [6, 5, 4, 3, -1], some [0, 0, 0, 0, 0],
        some [0, 0, 0, 0, 0], some [0, 1, 2, 3, 4]⟩).map Prod.fst
      = .ok (PyVal.float 50) := by
  have h : processRun 5 ⟨some 2, some [6, 5, 4, 3, -1], some [0, 0, 0, 0, 0],
      some [0, 0, 0, 0, 0], some [0, 1, 2, 3, 4]⟩
      = .ok (PyVal.float 50, PyVal.float 0) := by
    unfold processRun
    norm_num [cap_service_data, np_clip, integral_with_time_step, List.range_succ,
      calculate_service_loss, convert_Ws_to_Wh, Bind.bind, Except.bind]
  refine ⟨?_, ?_, ?_, by rw [h]; rfl⟩
  · unfold cap_service_data np_clip
    norm_num
  · unfold integral_with_time_step
    norm_num [List.range_succ]
  · unfold integral_with_time_step
    norm_num [List.range_succ, List.replicate]

/-- C2: on a run whose pressure and time sequences have different
lengths, the integration step itself signals the mismatch non-fatally
(warns and returns an absent value), but the orchestrator feeds that
absent value straight into the service-loss arithmetic, which raises a
TypeError: the run does not contribute a NaN placeholder and the group
loop aborts, contradicting the claimed graceful degradation. -/
theorem C2_length_mismatch_aborts :
    integral_with_time_step [1, 2] [0, 1, 2] = none ∧
    processRun 5 ⟨some 0, some [1, 2], some [0, 0, 0], some [0, 0, 0],
        some [0, 1, 2]⟩ = .error .typeError ∧
    processGroup mismatchArchive ["G"] "G" = .error .typeError := by
  refine ⟨by decide, by rfl, by rfl⟩

/-- C4: for equal-length sequences of length at least 1,
integral_with_time_step returns exactly the specification's
trapezoidal sum; integrating the constant pair [a,a] over [0,1] gives
a, and any length-1 input integrates to 0. -/
theorem C4_trapezoid_formula :
    (∀ s t : List ℚ, s.length = t.length → 1 ≤ s.length →
        integral_with_time_step s t = some (trapFormula s t)) ∧
    (∀ a : ℚ, integral_with_time_step [a, a] [0, 1] = some a) ∧
    (∀ a b : ℚ, integral_with_time_step [a] [b] = some 0) := by
  refine ⟨?_, ?_, ?_⟩
  · intro s t h _
    unfold integral_with_time_step trapFormula
    rw [if_neg (by omega), foldl_add_eq_sum_map]
    rw [zero_add]
  · intro a
    unfold integral_with_time_step
    norm_num [List.range_succ]
    ring
  · intro a b
    unfold integral_with_time_step
    norm_num

/-- C6: for every signal and every setpoint at least 0, each element of
the capped signal lies in [0, setpoint], and each element already in
that range is unchanged at its position. -/
theorem C6_capping (signal : List ℚ) (sp : ℚ) (hsp : 0 ≤ sp) :
    (∀ y ∈ cap_service_data signal sp, 0 ≤ y ∧ y ≤ sp) ∧
    (∀ i : ℕ, i < signal.length → 0 ≤ signal.getD i 0 → signal.getD i 0 ≤ sp →
        (cap_service_data signal sp).getD i 0 = signal.getD i 0) := by
  constructor
  · intro y hy
    rcases List.mem_map.mp hy with ⟨x, -, rfl⟩
    unfold np_clip
    exact ⟨le_min hsp (le_max_right x 0), min_le_left _ _⟩
  · intro i hi h0 hsp2
    unfold cap_service_data
    rw [List.getD_eq_getElem _ _ (by simpa using hi), List.getElem_map,
      List.getD_eq_getElem _ _ hi] at *
    unfold np_clip
    rw [max_eq_left h0, min_eq_right hsp2]

/-- C6 witness: the capping theorem instantiated at signal [1,-2,7] and
setpoint 5. -/
theorem C6_capping_witness :
    (∀ y ∈ cap_service_data [1, -2, 7] 5, 0 ≤ y ∧ y ≤ 5) ∧
    (∀ i : ℕ, i < ([1, -2, 7] : List ℚ).length →
        0 ≤ ([1, -2, 7] : List ℚ).getD i 0 →
        ([1, -2, 7] : List ℚ).getD i 0 ≤ 5 →
        (cap_service_data [1, -2, 7] 5).getD i 0
          = ([1, -2, 7] : List ℚ).getD i 0) :=
  C6_capping [1, -2, 7] 5 (by norm_num)

/-- C7: for every nonzero target, calculate_service_loss returns
100 * (1 - actual/target); equal positive actual and target give loss
0, and a zero actual against a positive target gives loss 100. -/
theorem C7_service_loss :
    (∀ a t : ℚ, t ≠ 0 → calculate_service_loss a t = .ok (100 * (1 - a / t))) ∧
    (∀ x : ℚ, 0 < x → calculate_service_loss x x = .ok 0) ∧
    (∀ x : ℚ, 0 < x → calculate_service_loss 0 x = .ok 100) := by
  refine ⟨?_, ?_, ?_⟩
  · intro a t ht
    unfold calculate_service_loss
    rw [if_neg ht]
  · intro x hx
    unfold calculate_service_loss
    rw [if_neg (ne_of_gt hx), div_self (ne_of_gt hx)]
    norm_num
  · intro x hx
    unfold calculate_service_loss
    rw [if_neg (ne_of_gt hx)]
    norm_num

/-- C7 witness: the service-loss theorem instantiated at (3,4), (2,2)
and (0,5). -/
theorem C7_service_loss_witness :
    calculate_service_loss 3 4 = .ok (100 * (1 - 3 / 4)) ∧
    calculate_service_loss 2 2 = .ok 0 ∧
    calculate_service_loss 0 5 = .ok 100 :=
  ⟨C7_service_loss.1 3 4 (by norm_num), C7_service_loss.2.1 2 (by norm_num),
   C7_service_loss.2.2 5 (by norm_num)⟩

/-- C9: the service-loss division is unguarded, so it raises
ZeroDivisionError exactly when the target integral is 0 and otherwise
returns the finite quotient; a run whose sliced analysis window has
zero duration (start index at the last sample) aborts with that
exception instead of yielding a metric. -/
theorem C9_zero_target_divides :
    (∀ f t : ℚ, calculate_service_loss f t =
        if t = 0 then .error .zeroDivision else .ok (100 * (1 - f / t))) ∧
    processRun 5 ⟨some 4, some [6, 5, 4, 3, -1], some [0, 0, 0, 0, 0],
        some [0, 0, 0, 0, 0], some [0, 1, 2, 3, 4]⟩ = .error .zeroDivision := by
  exact ⟨fun f t => rfl, by rfl⟩

/-- C4 witness: the trapezoid theorem instantiated at [1,3]/[0,2],
[7,7]/[0,1] and the length-1 input [2]/[5]. -/
theorem C4_trapezoid_formula_witness :
    integral_with_time_step [1, 3] [0, 2] = some (trapFormula [1, 3] [0, 2]) ∧
    integral_with_time_step [7, 7] [0, 1] = some 7 ∧
    integral_with_time_step [2] [5] = some 0 :=
  ⟨C4_trapezoid_formula.1 [1, 3] [0, 2] rfl (by norm_num),
   C4_trapezoid_formula.2.1 7, C4_trapezoid_formula.2.2 2 5⟩

/-- C3: writing a table together with its metadata record at a location
and reading that location back returns exactly the same table (row for
row) and exactly the same metadata dictionary, whatever the store held
before. -/
theorem C3_roundtrip (store : HDFStoreFile) (k : String) (T : Table) (M : Metadata) :
    read_plot_data (save_dataframe_in_hdf5_with_metadata T store k M) k
      = some (T, M) := by
  unfold save_dataframe_in_hdf5_with_metadata read_plot_data
  simp [List.lookup]

theorem npSum_of_mem_none : ∀ arr : List NpFloat, none ∈ arr → npSum arr = none := by
  intro arr h
  induction arr with
  | nil => cases h
  | cons x xs ih =>
      rcases List.mem_cons.mp h with h1 | h2
      · subst h1; rfl
      · cases x with
        | none => rfl
        | some a => rw [npSum, ih h2]; rfl

theorem npSum_map_some (l : List ℚ) : npSum (l.map some) = some l.sum := by
  induction l with
  | nil => rfl
  | cons x xs ih => rw [List.map_cons, npSum, ih, List.sum_cons]; rfl

theorem np_mean_map_some (l : List ℚ) (hl : l ≠ []) :
    np_mean (l.map some) = some (meanFormula l) := by
  unfold np_mean meanFormula
  rw [List.length_map, if_neg (fun h0 => hl (List.length_eq_zero.mp h0)), npSum_map_some]
  rfl

theorem np_mean_of_mem_none (arr : List NpFloat) (h : none ∈ arr) :
    np_mean arr = none := by
  unfold np_mean
  by_cases h0 : arr.length = 0
  · rw [if_pos h0]
  · rw [if_neg h0, npSum_of_mem_none arr h]
    rfl

theorem np_var_map_some (l : List ℚ) (hl : l ≠ []) :
    np_var (l.map some) = some (varFormula l) := by
  unfold np_var
  rw [np_mean_map_some l hl, Option.some_bind]
  have hmaps : (l.map some).map
        (fun x => x.map (fun q => (q - meanFormula l) ^ 2))
      = (l.map (fun q => (q - meanFormula l) ^ 2)).map some := by
    rw [List.map_map, List.map_map]; rfl
  rw [hmaps, np_mean_map_some _ (by simpa using hl)]
  unfold varFormula meanFormula
  rw [List.length_map]

theorem calculate_mean_and_std_all_floats (l : List ℚ) (hl : l ≠ []) :
    calculate_mean_and_std (l.map .float)
      = (some (meanFormula l), some (Real.sqrt ((varFormula l : ℚ) : ℝ))) := by
  have harr : (l.map PyVal.float).map asarray_float = l.map some := by
    rw [List.map_map]; rfl
  unfold calculate_mean_and_std np_std
  rw [harr, np_mean_map_some l hl, np_var_map_some l hl, Option.map_some']

/-- C5: calculate_mean_and_std propagates NaN (any NaN entry makes both
the mean and the standard deviation NaN); on a NaN-free list it returns
the exact arithmetic mean and the population standard deviation (square
root of the mean squared deviation); in particular the list [2,4]
reduces to mean 3 and standard deviation 1. -/
theorem C5_reduce_mean_std :
    (∀ data : List PyVal, PyVal.nan ∈ data →
        calculate_mean_and_std data = (none, none)) ∧
    (∀ l : List ℚ, l ≠ [] →
        calculate_mean_and_std (l.map .float)
          = (some (meanFormula l), some (Real.sqrt ((varFormula l : ℚ) : ℝ)))) ∧
    calculate_mean_and_std [.float 2, .float 4] = (some 3, some 1) := by
  refine ⟨?_, calculate_mean_and_std_all_floats, ?_⟩
  · intro data hnan
    have hmem : (none : NpFloat) ∈ data.map asarray_float :=
      List.mem_map.mpr ⟨PyVal.nan, hnan, rfl⟩
    unfold calculate_mean_and_std np_std np_var
    rw [np_mean_of_mem_none _ hmem]
    rfl
  · have h2 : [PyVal.float 2, PyVal.float 4] = [(2:ℚ), 4].map PyVal.float := rfl
    rw [h2, calculate_mean_and_std_all_floats [2, 4] (by simp)]
    have hm : meanFormula [2, 4] = 3 := by
      unfold meanFormula; norm_num
    have hv : varFormula [2, 4] = 1 := by
      unfold varFormula; rw [hm]; norm_num
    rw [hm, hv]
    norm_num

/-- C5 witness: NaN propagation applied to the specification's example
[1, NaN, 3], and the exact-value clause applied to [2, 4]. -/
theorem C5_reduce_mean_std_witness :
    calculate_mean_and_std [PyVal.float 1, PyVal.nan, PyVal.float 3] = (none, none) ∧
    calculate_mean_and_std ([(2:ℚ), 4].map PyVal.float)
      = (some (meanFormula [2, 4]), some (Real.sqrt ((varFormula [2, 4] : ℚ) : ℝ))) :=
  ⟨C5_reduce_mean_std.1 _ (by simp), C5_reduce_mean_std.2.1 [2, 4] (by simp)⟩

/-- C10 counterexample: the float-array conversion does not reject a
Python None entry — NumPy converts None to NaN — so
calculate_mean_and_std on a list containing None returns NaN results
instead of failing with an error. -/
theorem C10_counterexample :
    asarray_float PyVal.pynone = none ∧
    calculate_mean_and_std [PyVal.pynone, PyVal.float 1] = (none, none) :=
  ⟨rfl, rfl⟩

/-- C10 amended: `np.asarray(data, dtype=float)` converts None entries
to NaN, so calculate_mean_and_std never fails on a list containing
None — it propagates NaN for None exactly as it does for NaN entries —
and the orchestrator's missing-run path indeed appends NaN (never
None): aggregation succeeds on every list of floats, NaNs and Nones. -/
theorem C10_amended_none_is_nan :
    (∀ data : List PyVal, PyVal.pynone ∈ data →
        calculate_mean_and_std data = (none, none)) ∧
    (∀ (sp : ℚ) (st : Option ℕ) (p1 p2 tm : Option (List ℚ)),
        processRun sp ⟨st, none, p1, p2, tm⟩ = .ok (.nan, .nan)) := by
  constructor
  · intro data hnone
    have hmem : (none : NpFloat) ∈ data.map asarray_float :=
      List.mem_map.mpr ⟨PyVal.pynone, hnone, rfl⟩
    unfold calculate_mean_and_std np_std np_var
    rw [np_mean_of_mem_none _ hmem]
    rfl
  · intro sp st p1 p2 tm
    cases p1 <;> cases p2 <;> cases tm <;> rfl

/-- C10 witness: the amended claim applied to a singleton None list and
to a concrete missing run. -/
theorem C10_amended_none_is_nan_witness :
    calculate_mean_and_std [PyVal.float 1, PyVal.pynone] = (none, none) ∧
    processRun 5 ⟨some 0, none, some [1], some [1], some [0]⟩
      = .ok (.nan, .nan) :=
  ⟨C10_amended_none_is_nan.1 _ (by simp),
   C10_amended_none_is_nan.2 5 (some 0) (some [1]) (some [1]) (some [0])⟩

theorem except_ok_bind {α β : Type} (a : α) (k : α → Except PyError β) :
    (Except.ok a >>= k) = k a := rfl

theorem mapM_ok_of_all_ok {α β : Type} (f : α → Except PyError β) :
    ∀ l : List α, (∀ x ∈ l, (f x).isOk = true) →
      ∃ ys, l.mapM f = Except.ok ys := by
  intro l
  induction l with
  | nil => exact fun _ => ⟨[], rfl⟩
  | cons x xs ih =>
      intro h
      obtain ⟨ys, hys⟩ := ih (fun y hy => h y (List.mem_cons_of_mem _ hy))
      have hx := h x (List.mem_cons_self x xs)
      cases hfx : f x with
      | error e => rw [hfx] at hx; exact absurd hx (by simp [Except.isOk, Except.toBool])
      | ok b =>
          refine ⟨b :: ys, ?_⟩
          rw [List.mapM_cons, hfx, hys]
          rfl

theorem processGroup_not_considered (A : Archive) (considered : List String)
    (g : String) (hg : g ∉ considered) :
    processGroup A considered g = .ok .skippedNotConsidered := by
  unfold processGroup
  rw [if_pos hg]

theorem processGroup_no_setpoint (A : Archive) (considered : List String)
    (g : String) (hg : g ∈ considered) (hsp : A.setpoint g = none) :
    processGroup A considered g = .ok .skippedNoSetpoint := by
  unfold processGroup
  rw [if_neg (not_not_intro hg), hsp]

theorem processGroup_aggregated (A : Archive) (considered : List String)
    (g : String) (hg : g ∈ considered) (sp : ℚ) (hsp : A.setpoint g = some sp)
    (hok : groupRunsOk A g = true) :
    ∃ row, processGroup A considered g = .ok (.aggregated row) := by
  unfold groupRunsOk at hok
  rw [hsp] at hok
  have hall : ∀ i ∈ runIds, (processRun sp (A.runs g i)).isOk = true := by
    simpa [List.all_eq_true] using hok
  obtain ⟨ys, hys⟩ :=
    mapM_ok_of_all_ok (fun i => processRun sp (A.runs g i)) runIds hall
  refine ⟨⟨(calculate_mean_and_std (ys.map Prod.snd)).1,
      (calculate_mean_and_std (ys.map Prod.snd)).2,
      (calculate_mean_and_std (ys.map Prod.fst)).1,
      (calculate_mean_and_std (ys.map Prod.fst)).2⟩, ?_⟩
  unfold processGroup
  rw [if_neg (not_not_intro hg), hsp]
  show (runIds.mapM (fun i => processRun sp (A.runs g i)) >>= fun pairs =>
      Except.ok (GroupOutcome.aggregated
        ⟨(calculate_mean_and_std (pairs.map Prod.snd)).1,
         (calculate_mean_and_std (pairs.map Prod.snd)).2,
         (calculate_mean_and_std (pairs.map Prod.fst)).1,
         (calculate_mean_and_std (pairs.map Prod.fst)).2⟩)) = _
  rw [hys, except_ok_bind]

theorem buildTable_loop (A : Archive) (considered : List String) :
    ∀ (names : List String) (acc : Table),
      (∀ g ∈ names, groupRunsOk A g = true) →
      ∃ T : Table,
        names.foldlM (tableStep A considered) acc = .ok T ∧
        T.map Prod.fst = acc.map Prod.fst ++ names.filter
          (fun g => decide (g ∈ considered) && (A.setpoint g).isSome) := by
  intro names
  induction names with
  | nil =>
      intro acc _
      exact ⟨acc, by rw [List.foldlM_nil]; rfl, by simp⟩
  | cons g gs ih =>
      intro acc hok
      have hokg := hok g (List.mem_cons_self g gs)
      have hokgs : ∀ x ∈ gs, groupRunsOk A x = true :=
        fun x hx => hok x (List.mem_cons_of_mem _ hx)
      rw [List.foldlM_cons]
      by_cases hg : g ∈ considered
      · cases hsp : A.setpoint g with
        | none =>
            obtain ⟨T, hT, hkeys⟩ := ih acc hokgs
            refine ⟨T, ?_, ?_⟩
            · have hstep : tableStep A considered acc g = .ok acc := by
                unfold tableStep
                rw [processGroup_no_setpoint A considered g hg hsp]
                rfl
              rw [hstep, except_ok_bind, hT]
            · rw [hkeys, List.filter_cons]
              simp [hg, hsp]
        | some sp =>
            obtain ⟨row, hrow⟩ :=
              processGroup_aggregated A considered g hg sp hsp hokg
            obtain ⟨T, hT, hkeys⟩ := ih (acc ++ [(g, row)]) hokgs
            refine ⟨T, ?_, ?_⟩
            · have hstep : tableStep A considered acc g = .ok (acc ++ [(g, row)]) := by
                unfold tableStep
                rw [hrow]
                rfl
              rw [hstep, except_ok_bind, hT]
            · rw [hkeys, List.filter_cons]
              simp [hg, hsp]
      · obtain ⟨T, hT, hkeys⟩ := ih acc hokgs
        refine ⟨T, ?_, ?_⟩
        · have hstep : tableStep A considered acc g = .ok acc := by
            unfold tableStep
            rw [processGroup_not_considered A considered g hg]
            rfl
          rw [hstep, except_ok_bind, hT]
        · rw [hkeys, List.filter_cons]
          simp [hg]

/-- C8: for every enumerated group exactly one of three outcomes
occurs.  A group outside the caller-supplied allow-list is skipped with
an outcome that does not depend on the archive at all (its setpoint is
never queried) and, by the key equation, never appears in the output
table; a considered group with no setpoint attribute is skipped with no
row; a considered group with a setpoint whose runs all process without
raising contributes exactly one aggregated row keyed by the group id.
The table's key list is exactly the enumerated names filtered to
considered groups with a setpoint, each exactly once. -/
theorem C8_group_trichotomy (A : Archive) (considered names : List String)
    (hnd : names.Nodup) (hok : ∀ g ∈ names, groupRunsOk A g = true) :
    (∀ (A' : Archive) (g : String), g ∉ considered →
        processGroup A' considered g = .ok .skippedNotConsidered) ∧
    (∀ g : String, g ∈ considered → A.setpoint g = none →
        processGroup A considered g = .ok .skippedNoSetpoint) ∧
    (∀ g ∈ names, g ∈ considered → ∀ sp : ℚ, A.setpoint g = some sp →
        ∃ row, processGroup A considered g = .ok (.aggregated row)) ∧
    (∃ T : Table, buildTable A considered names = .ok T ∧
      T.map Prod.fst = names.filter
        (fun g => decide (g ∈ considered) && (A.setpoint g).isSome) ∧
      (∀ g ∈ names, g ∈ considered → (A.setpoint g).isSome →
        (T.map Prod.fst).count g = 1) ∧
      (∀ g : String, g ∉ considered → (T.map Prod.fst).count g = 0)) := by
  refine ⟨fun A' g hg => processGroup_not_considered A' considered g hg,
    fun g hg hsp => processGroup_no_setpoint A considered g hg hsp,
    fun g hgn hg sp hsp =>
      processGroup_aggregated A considered g hg sp hsp (hok g hgn), ?_⟩
  obtain ⟨T, hT, hkeys⟩ := buildTable_loop A considered names [] hok
  rw [List.map_nil, List.nil_append] at hkeys
  refine ⟨T, hT, hkeys, ?_, ?_⟩
  · intro g hgn hg hsome
    rw [hkeys, List.count_filter (by simp [hg, hsome])]
    exact List.count_eq_one_of_mem hnd hgn
  · intro g hg
    rw [hkeys, List.count_eq_zero]
    intro hmem
    have hpred := (List.mem_filter.mp hmem).2
    simp [hg] at hpred

/-- C8 witness: the trichotomy applied to a concrete archive where
group A is considered and has a setpoint (all runs missing, hence NaN
placeholders), B is considered but has no setpoint, and C is not
considered: the output table has exactly the key A. -/
theorem C8_group_trichotomy_witness :
    (["A", "B", "C"] : List String).Nodup ∧
    (∀ g ∈ (["A", "B", "C"] : List String), groupRunsOk witnessArchive g = true) ∧
    ∃ T : Table, buildTable witnessArchive ["A", "B"] ["A", "B", "C"] = .ok T ∧
      T.map Prod.fst = ["A"] := by
  refine ⟨by decide, by decide, ?_⟩
  obtain ⟨-, -, -, T, hT, hkeys, -⟩ :=
    C8_group_trichotomy witnessArchive ["A", "B"] ["A", "B", "C"]
      (by decide) (by decide)
  exact ⟨T, hT, by rw [hkeys]; rfl⟩
